import Mathlib

/-!
Verification development for the booking.com hotel-harvesting script
(`main.py`).  The Python source is shallowly embedded: page interactions
(element reads, attribute reads, URL access) become explicit inputs, a read
that may time out or fault is an `Option`/sum value, and the SQLite database
becomes an explicit `DB` state threaded through `save_to_database`.
-/

set_option autoImplicit false

/-! ### Python string primitives

Helpers mirroring the Python string operations the script uses:
`sub in s`, `s.split(sep)[1].split('&')[0]`, `s.startswith(p)`,
`d.zfill(2)`, `int(s)`, and regex digit scans. -/

/-- Does `l` start with the character list `p`? (Python `startswith` on lists.) -/
def charsStart : List Char → List Char → Bool
  | [], _ => true
  | _ :: _, [] => false
  | a :: as, b :: bs => a = b && charsStart as bs

/-- `String.startswith` of Python, via character lists. -/
def pyStartsWith (s p : String) : Bool :=
  charsStart p.toList s.toList

/-- Split `l` at the first occurrence of `sep`, returning the part before and
the part after the occurrence; `none` when `sep` does not occur. -/
def splitFirst (sep : List Char) : List Char → Option (List Char × List Char)
  | [] => none
  | c :: rest =>
    if charsStart sep (c :: rest) then some ([], (c :: rest).drop sep.length)
    else
      match splitFirst sep rest with
      | some (a, b) => some (c :: a, b)
      | none => none

/-- Python `sub in s` (substring containment, for non-empty `sub`). -/
def pyContains (s sub : String) : Bool :=
  (splitFirst sub.toList s.toList).isSome

/-- The part of `l` before the first occurrence of `sep` (all of `l` when
`sep` does not occur) — one chunk of a Python `split`. -/
def takeBeforeSub (sep l : List Char) : List Char :=
  match splitFirst sep l with
  | some (a, _) => a
  | none => l

/-- Python `s.split(sep)[1].split('&')[0]`: the text between the first
occurrence of `sep` and the next occurrence of `sep`, cut at the first
ampersand.  The callers in the source only evaluate it after checking
`sep in s`, so the out-of-range case never arises and is mapped to `""`. -/
def pyAfterFirst (s sep : String) : String :=
  match splitFirst sep.toList s.toList with
  | some (_, rest) => (takeBeforeSub ['&'] (takeBeforeSub sep.toList rest)).asString
  | none => ""

/-- Python truthiness of an optional string: `None` and `""` are falsy. -/
def pyFalsy : Option String → Bool
  | none => true
  | some s => s == ""

/-- Digit-run core of Python `int`: after the leading digit, the remaining
characters are digits with single underscores allowed between digits. -/
def usCore : List Char → Bool
  | [] => true
  | '_' :: c :: rest => c.isDigit && usCore rest
  | '_' :: [] => false
  | c :: rest => c.isDigit && usCore rest

/-- Numeric value of a digit list (underscores already filtered out). -/
def digitsToNat (l : List Char) : Nat :=
  l.foldl (fun n c => n * 10 + (c.toNat - 48)) 0

/-- Parse an unsigned decimal integer the way Python `int` accepts it
(non-empty, digits with internal underscores). -/
def pyIntCore (l : List Char) : Option Nat :=
  match l with
  | [] => none
  | c :: rest =>
    if c.isDigit && usCore rest then some (digitsToNat (l.filter Char.isDigit))
    else none

/-- Strip leading and trailing whitespace from a character list. -/
def stripWs (l : List Char) : List Char :=
  ((l.dropWhile Char.isWhitespace).reverse.dropWhile Char.isWhitespace).reverse

/-- Python `int(s)` on strings: surrounding whitespace, an optional sign, then
a decimal integer; `none` models the `ValueError` raised otherwise. -/
def pyInt (s : String) : Option Int :=
  match stripWs s.toList with
  | '+' :: rest => (pyIntCore rest).map Int.ofNat
  | '-' :: rest => (pyIntCore rest).map (fun n => -(n : Int))
  | rest => (pyIntCore rest).map Int.ofNat

/-- First maximal digit run of a string: `re.findall(r'\d+', t)[0]`, `none`
when the list of matches is empty (the Python code then raises `IndexError`). -/
def firstDigitRunAux : List Char → Option String
  | [] => none
  | c :: rest =>
    if c.isDigit then some ((c :: rest.takeWhile Char.isDigit).asString)
    else firstDigitRunAux rest

/-- `re.findall(r'\d+', t)[0]` as an optional value. -/
def firstDigitRun (t : String) : Option String :=
  firstDigitRunAux t.toList

/-! ### clean_rating (main.py lines 151-160)

`re.search(r'(\d+\.?\d*)', rating_text)`: scan to the first digit, take the
maximal digit run, optionally one dot, then a further digit run. -/

/-- Given a list that starts with a digit, the regex token `\d+\.?\d*` matched
greedily at its head, together with the unmatched suffix. -/
def numTokAt (l : List Char) : List Char × List Char :=
  match l.dropWhile Char.isDigit with
  | '.' :: r2 =>
    (l.takeWhile Char.isDigit ++ '.' :: r2.takeWhile Char.isDigit,
     r2.dropWhile Char.isDigit)
  | r1 => (l.takeWhile Char.isDigit, r1)

/-- `re.search(r'(\d+\.?\d*)', ·)`: the digit-free text before the match, the
matched token, and the suffix after it; `none` when no digit occurs. -/
def findNum : List Char → Option (List Char × List Char × List Char)
  | [] => none
  | c :: rest =>
    if c.isDigit then some ([], (numTokAt (c :: rest)).1, (numTokAt (c :: rest)).2)
    else
      match findNum rest with
      | some (pre, tok, suf) => some (c :: pre, tok, suf)
      | none => none

/-- `clean_rating` of main.py: the first decimal-or-integer numeric substring
of the rating text, or the sentinel `"No rating"`. -/
def clean_rating (rating_text : String) : String :=
  match findNum rating_text.toList with
  | some (_, tok, _) => tok.asString
  | none => "No rating"

/-- Shape of the regex token `\d+\.?\d*` after its first digit: zero or more
digits, optionally one dot followed by zero or more digits. -/
def numTokRest : List Char → Bool
  | [] => true
  | c :: rest => if c = '.' then rest.all Char.isDigit else c.isDigit && numTokRest rest

/-- A character list matching the full token `\d+\.?\d*`. -/
def listNumTok : List Char → Bool
  | [] => false
  | c :: rest => c.isDigit && numTokRest rest

/-- A string matching the full token `\d+\.?\d*`. -/
def isNumTok (s : String) : Bool :=
  listNumTok s.toList

/-! ### load_all_hotels (main.py lines 162-196)

The loop's control flow depends only on the sequence of scroll-extent
measurements `document.body.scrollHeight`; the measurement of round `i` is an
input `h i`.  The hotel count is only printed, and the "load more" click only
influences the page, i.e. future measurements, so neither appears in the
state.  `loadAux` returns the number of rounds executed and whether the loop
ended through the two-round stall break (`true`) or the 100-round cap. -/

def loadAux (h : Nat → Nat) : Nat → Nat → Nat → Nat → Nat × Bool
  | 0, _, _, _ => (0, false)
  | fuel + 1, i, last, stall =>
    if h i = last then
      if stall + 1 ≥ 2 then (1, true)
      else ((loadAux h fuel (i + 1) (h i) (stall + 1)).1 + 1,
            (loadAux h fuel (i + 1) (h i) (stall + 1)).2)
    else ((loadAux h fuel (i + 1) (h i) 0).1 + 1,
          (loadAux h fuel (i + 1) (h i) 0).2)

/-- `load_all_hotels`: `last_height = 0`, `no_new_hotels_count = 0`,
`max_attempts = 100`. -/
def load_all_hotels (h : Nat → Nat) : Nat × Bool :=
  loadAux h 100 0 0 0

/-- The scroll extent the loop compares round `i`'s measurement against:
`0` before the first round, afterwards the previous round's measurement. -/
def prevH (h : Nat → Nat) : Nat → Nat
  | 0 => 0
  | i + 1 => h i

/-! ### collect_hotel_data (main.py lines 198-239)

One hotel card is embedded as the outcome of its five page reads: `inner_text`
reads either fault/time out (`none`) or return text; the link `get_attribute`
read can also succeed with a missing attribute (Python `None`). -/

/-- Outcome of `get_attribute('href')`: the read raised, the attribute was
absent (Python `None`), or the attribute's string value. -/
inductive AttrResult where
  | raised : AttrResult
  | missing : AttrResult
  | found : String → AttrResult
deriving DecidableEq

/-- The per-field read outcomes of one result card. -/
structure HotelCard where
  name : Option String
  price : Option String
  linkAttr : AttrResult
  address : Option String
  ratingText : Option String

/-- One collected record (the dict built at main.py lines 227-233); `link` is
optional because a missing href leaves the Python variable at `None`. -/
structure HotelRec where
  name : String
  price : String
  rating : String
  address : String
  link : Option String
deriving DecidableEq

/-- Link normalization (main.py lines 209-210):
`if link and not link.startswith('http'): link = f"https://www.booking.com{link}"`. -/
def normalizeHref (s : String) : String :=
  if (s != "") && !(pyStartsWith s "http") then "https://www.booking.com" ++ s
  else s

/-- `collect_hotel_data`: `name` and `price` reads are unguarded inside the
outer try, so either faulting discards the card; each of link, address and
rating has its own inner handler that degrades to a sentinel. -/
def collect_hotel_data (hotel : HotelCard) : Option HotelRec :=
  match hotel.name with
  | none => none
  | some name =>
    match hotel.price with
    | none => none
    | some price =>
      let link : Option String :=
        match hotel.linkAttr with
        | AttrResult.raised => some "No link available"
        | AttrResult.missing => none
        | AttrResult.found s => some (normalizeHref s)
      let address : String :=
        match hotel.address with
        | none => "No address available"
        | some a => a
      let rating : String :=
        match hotel.ratingText with
        | none => "No rating"
        | some t => clean_rating t
      some { name := name, price := price, rating := rating,
             address := address, link := link }

/-! ### save_to_database (main.py lines 241-272)

The SQLite database is a pair of tables with autoincrement counters.  All
inserts of one call happen inside one transaction: `conn.commit()` publishes
them, the `except` branch calls `conn.rollback()` — and then returns
normally (the exception is printed, not re-raised).  Fault injection:
`faultAt = some k` makes the `k`-th insert of the call raise (`0` is the
session insert, `i + 1` the insert of hotel `i`).  The `Except` result type
records whether an exception escapes the call: the catch-all handler makes
the result always `Except.ok`. -/

/-- The search-context values bound into the session insert. -/
structure SessionData where
  location : String
  check_in : String
  check_out : String
  guests : Int
deriving DecidableEq

/-- A row of `search_sessions`. -/
structure SessionRow where
  session_id : Nat
  location : String
  check_in_date : String
  check_out_date : String
  guests : Int
deriving DecidableEq

/-- A row of `hotels`. -/
structure HotelRow where
  hotel_id : Nat
  session_id : Nat
  name : String
  price : String
  rating : String
  address : String
  link : Option String
deriving DecidableEq

/-- The persistent database state. -/
structure DB where
  sessions : List SessionRow
  hotels : List HotelRow
  nextSessionId : Nat
  nextHotelId : Nat
deriving DecidableEq

/-- A database with empty tables (autoincrement starts at 1). -/
def emptyDB : DB := { sessions := [], hotels := [], nextSessionId := 1, nextHotelId := 1 }

/-- The session `INSERT`; returns the updated state and `cursor.lastrowid`. -/
def insertSession (db : DB) (s : SessionData) : DB × Nat :=
  ({ db with
      sessions := db.sessions ++
        [{ session_id := db.nextSessionId, location := s.location,
           check_in_date := s.check_in, check_out_date := s.check_out,
           guests := s.guests }],
      nextSessionId := db.nextSessionId + 1 },
   db.nextSessionId)

/-- The per-hotel `INSERT` loop; `idx` is the index of the next insert in the
call's fault numbering. -/
def insertHotels (sid : Nat) (faultAt : Option Nat) :
    List HotelRec → Nat → DB → Except Unit DB
  | [], _, db => Except.ok db
  | h :: rest, idx, db =>
    if faultAt = some idx then Except.error ()
    else
      insertHotels sid faultAt rest (idx + 1)
        { db with
            hotels := db.hotels ++
              [{ hotel_id := db.nextHotelId, session_id := sid, name := h.name,
                 price := h.price, rating := h.rating, address := h.address,
                 link := h.link }],
            nextHotelId := db.nextHotelId + 1 }

/-- `save_to_database`: session insert, hotel inserts, commit; any exception
is caught, rolled back (the pre-call state is kept) and swallowed, so the
call itself always returns `Except.ok`. -/
def save_to_database (db : DB) (faultAt : Option Nat) (s : SessionData)
    (hotels_data : List HotelRec) : Except Unit DB :=
  let attempt : Except Unit DB :=
    if faultAt = some 0 then Except.error ()
    else
      insertHotels (insertSession db s).2 faultAt hotels_data 1 (insertSession db s).1
  match attempt with
  | Except.ok db' => Except.ok db'
  | Except.error _ => Except.ok db

/-! ### get_search_parameters (main.py lines 43-149)

The live page is embedded as the outcomes of the reads the function can
perform: `input_value`/`inner_text` per CSS selector (`none` models a raised
exception), the `data-date` attributes of the date-display buttons, the date
box visibility plus the result of the date-range regex on its text, and the
current URL.  `datetime.now()` is embedded as the `currentYear`/`today`/
`tomorrow` strings the function would format. -/

/-- The observable state of the page during `get_search_parameters`. -/
structure PageState where
  url : String
  inputValue : String → Option String
  innerText : String → Option String
  dateButtonsAll : Option (List AttrResult)
  dateBoxVisible : Option Bool
  dateBoxMatch : Option (Option (String × String × String × String))
  currentYear : String
  today : String
  tomorrow : String

/-- The location selectors of main.py lines 49-54, in order. -/
def locationSelectors : List String :=
  ["input[name=\"ss\"]",
   "input[data-testid=\"destination-input\"]",
   "input[placeholder*=\"Where\"]",
   "input[placeholder*=\"Destination\"]"]

/-- The guest selectors of main.py lines 118-122, in order. -/
def guestSelectors : List String :=
  ["input[name=\"group_adults\"]",
   "span[data-testid=\"occupancy-config\"]",
   "div[data-testid=\"occupancy-config\"]"]

/-- The selector loop of lines 55-61: first selector whose `input_value`
neither raises nor returns an empty string. -/
def tryInputs : List (Option String) → Option String
  | [] => none
  | none :: rest => tryInputs rest
  | some s :: rest => if s == "" then tryInputs rest else some s

/-- The `location` variable after lines 48-65: selectors first, then the URL
`ss=` query parameter as fallback. -/
def locationVar (st : PageState) : Option String :=
  match tryInputs (locationSelectors.map st.inputValue) with
  | some l => some l
  | none =>
    if pyContains st.url "booking.com/search" && pyContains st.url "ss=" then
      some (pyAfterFirst st.url "ss=")
    else none

/-- Date strategy 1 (lines 69-77): `checkin=`/`checkout=` URL parameters. -/
def datesFromUrl (st : PageState) : Option String × Option String :=
  if pyContains st.url "checkin=" && pyContains st.url "checkout=" then
    (some (pyAfterFirst st.url "checkin="), some (pyAfterFirst st.url "checkout="))
  else (none, none)

/-- Date strategy 2 (lines 80-86): `data-date` attributes of the first two
date-display buttons.  A raise on the second read leaves `check_in` already
reassigned; the surrounding handler then keeps the partial state. -/
def datesFromButtons (st : PageState) (ci co : Option String) :
    Option String × Option String :=
  match st.dateButtonsAll with
  | none => (ci, co)
  | some (b0 :: b1 :: _) =>
    match b0 with
    | AttrResult.raised => (ci, co)
    | AttrResult.missing =>
      match b1 with
      | AttrResult.raised => (none, co)
      | AttrResult.missing => (none, none)
      | AttrResult.found t => (none, some t)
    | AttrResult.found s =>
      match b1 with
      | AttrResult.raised => (some s, co)
      | AttrResult.missing => (some s, none)
      | AttrResult.found t => (some s, some t)
  | some _ => (ci, co)

/-- The month abbreviation table of lines 96-100. -/
def monthMap (m : String) : Option String :=
  if m == "Jan" then some "01" else if m == "Feb" then some "02"
  else if m == "Mar" then some "03" else if m == "Apr" then some "04"
  else if m == "May" then some "05" else if m == "Jun" then some "06"
  else if m == "Jul" then some "07" else if m == "Aug" then some "08"
  else if m == "Sep" then some "09" else if m == "Oct" then some "10"
  else if m == "Nov" then some "11" else if m == "Dec" then some "12"
  else none

/-- Python `d.zfill(2)`. -/
def zfill2 (d : String) : String :=
  if d.length ≥ 2 then d else "0" ++ d

/-- Date strategy 3 (lines 88-105): the date box text matched against the
fixed weekday/month/day range regex; a `KeyError` on the second month lookup
leaves `check_in` assigned and `check_out` not. -/
def datesFromBox (st : PageState) (ci co : Option String) :
    Option String × Option String :=
  match st.dateBoxVisible with
  | none => (ci, co)
  | some false => (ci, co)
  | some true =>
    match st.dateBoxMatch with
    | none => (ci, co)
    | some none => (ci, co)
    | some (some (m1, d1, m2, d2)) =>
      match monthMap m1 with
      | none => (ci, co)
      | some mm1 =>
        match monthMap m2 with
        | none => (some (st.currentYear ++ "-" ++ mm1 ++ "-" ++ zfill2 d1), co)
        | some mm2 =>
          (some (st.currentYear ++ "-" ++ mm1 ++ "-" ++ zfill2 d1),
           some (st.currentYear ++ "-" ++ mm2 ++ "-" ++ zfill2 d2))

/-- The `(check_in, check_out)` variables after lines 68-105: each later
strategy runs only while either variable is still falsy. -/
def datesVar (st : PageState) : Option String × Option String :=
  let p0 := datesFromUrl st
  let p1 := if pyFalsy p0.1 || pyFalsy p0.2 then datesFromButtons st p0.1 p0.2 else p0
  if pyFalsy p1.1 || pyFalsy p1.2 then datesFromBox st p1.1 p1.2 else p1

/-- The guest selector loop of lines 123-133.  The `guests` variable is
reassigned inside the `try`, so a raise part-way keeps the partial value:
in particular a digit-free `inner_text` result stays in the variable after
the `IndexError` of `re.findall(...)[0]`. -/
def guestsLoop (st : PageState) : List String → Option String → Option String
  | [], g => g
  | sel :: rest, g =>
    match st.inputValue sel with
    | none => guestsLoop st rest g
    | some v =>
      if v == "" then
        match st.innerText sel with
        | none => guestsLoop st rest (some v)
        | some t =>
          if t == "" then guestsLoop st rest (some t)
          else
            match firstDigitRun t with
            | none => guestsLoop st rest (some t)
            | some d => some d
      else some v

/-- The `guests` variable after lines 110-133: URL `group_adults=` parameter
first, then the selector loop while the value is falsy. -/
def guestsVar (st : PageState) : Option String :=
  let g0 :=
    if pyContains st.url "group_adults=" then some (pyAfterFirst st.url "group_adults=")
    else none
  if pyFalsy g0 then guestsLoop st guestSelectors g0 else g0

/-- The `guests` string after the line 134-135 default. -/
def guestsFinalStr (st : PageState) : String :=
  match guestsVar st with
  | none => "2"
  | some s => if s == "" then "2" else s

/-- `get_search_parameters`: resolve the four fields, apply the location and
date-pair defaults (lines 137-144), convert guests with `int` (line 145);
the top-level handler (lines 146-149) turns an `int` failure into the
all-default context. -/
def get_search_parameters (st : PageState) : String × String × String × Int :=
  match pyInt (guestsFinalStr st) with
  | none => ("Unknown Location", st.today, st.tomorrow, 2)
  | some n =>
    let loc :=
      match locationVar st with
      | none => "Unknown Location"
      | some l => if l == "" then "Unknown Location" else l
    let dv := datesVar st
    if pyFalsy dv.1 || pyFalsy dv.2 then (loc, st.today, st.tomorrow, n)
    else (loc, (dv.1).getD "", (dv.2).getD "", n)

/-! ### The collection loop and persistence decision of run (main.py 324-353)

The loop input is the list of per-card extraction outcomes
(`collect_hotel_data` results in document order).  `harvestLoop` returns the
collected batch and whether the 5-consecutive-failure break fired. -/

def harvestLoop : List (Option HotelRec) → Nat → List HotelRec × Bool
  | [], _ => ([], false)
  | some r :: rest, _ =>
    (r :: (harvestLoop rest 0).1, (harvestLoop rest 0).2)
  | none :: rest, failed =>
    if failed + 1 ≥ 5 then ([], true) else harvestLoop rest (failed + 1)

/-- The database state after a call whose (always `ok`) result is `r`; the
error branch is unreachable because `save_to_database` swallows faults. -/
def commitResult (db : DB) (r : Except Unit DB) : DB :=
  match r with
  | Except.ok db' => db'
  | Except.error _ => db

/-- Lines 344-353 of `run`: a non-empty batch is saved once, an empty batch
never reaches `save_to_database`. -/
def runPipeline (db : DB) (faultAt : Option Nat) (ctx : SessionData)
    (outs : List (Option HotelRec)) : DB :=
  if (harvestLoop outs 0).1.isEmpty then db
  else commitResult db (save_to_database db faultAt ctx (harvestLoop outs 0).1)

/-! ### Concrete states used by witnesses and counterexamples -/

/-- A page whose URL carries `ss=Paris` while the first location input field
holds `London`; dates come from the URL, guests from `group_adults=2`. -/
def exStLoc : PageState where
  url := "https://www.booking.com/searchresults.html?ss=Paris&checkin=2024-06-01&checkout=2024-06-03&group_adults=2"
  inputValue := fun sel => if sel == "input[name=\"ss\"]" then some "London" else none
  innerText := fun _ => none
  dateButtonsAll := none
  dateBoxVisible := some false
  dateBoxMatch := none
  currentYear := "2024"
  today := "2024-01-01"
  tomorrow := "2024-01-02"

/-- A page where location and dates resolve, but the `group_adults=` URL
parameter is the non-numeric string `abc`. -/
def exStBadGuests : PageState where
  url := "https://www.booking.com/searchresults.html?ss=Paris&group_adults=abc&checkin=2024-06-01&checkout=2024-06-03"
  inputValue := fun sel => if sel == "input[name=\"ss\"]" then some "London" else none
  innerText := fun _ => none
  dateButtonsAll := none
  dateBoxVisible := some false
  dateBoxMatch := none
  currentYear := "2024"
  today := "2024-01-01"
  tomorrow := "2024-01-02"

/-- Sample search-context values. -/
def exSess : SessionData where
  location := "Paris"
  check_in := "2024-06-01"
  check_out := "2024-06-03"
  guests := 2

/-- A sample collected record. -/
def exHotelA : HotelRec where
  name := "Hotel A"
  price := "$100"
  rating := "7.9"
  address := "1 Rue de Rivoli"
  link := some "https://www.booking.com/hotel/fr/a.html"

/-- A second sample collected record. -/
def exHotelB : HotelRec where
  name := "Hotel B"
  price := "$200"
  rating := "No rating"
  address := "No address available"
  link := some "No link available"

/-- A card whose mandatory reads succeed and whose three optional reads all
fault. -/
def exCard : HotelCard where
  name := some "Hotel A"
  price := some "$100"
  linkAttr := AttrResult.raised
  address := none
  ratingText := none

/-! ## Theorems -/

/-! ### Helper lemmas for clean_rating -/

/-- The head of `dropWhile p` does not satisfy `p`. -/
theorem head_dropWhile_false (p : Char → Bool) :
    ∀ (l : List Char) (c : Char), (l.dropWhile p).head? = some c → p c = false := by
  intro l
  induction l with
  | nil => intro c h; simp [List.dropWhile] at h
  | cons a as ih =>
    intro c h
    by_cases hp : p a
    · rw [List.dropWhile_cons_of_pos hp] at h
      exact ih c h
    · rw [List.dropWhile_cons_of_neg hp] at h
      simp at h
      subst h
      simpa using hp

/-- `numTokRest` holds on a list of digits. -/
theorem numTokRest_digits :
    ∀ ds : List Char, (∀ c ∈ ds, c.isDigit = true) → numTokRest ds = true := by
  intro ds
  induction ds with
  | nil => intro _; rfl
  | cons c rest ih =>
    intro h
    have hc : c.isDigit = true := h c (List.mem_cons_self c rest)
    have hcd : ¬ c = '.' := by
      intro he
      rw [he] at hc
      simp at hc
    simp [numTokRest, hcd, hc]
    exact ih fun d hd => h d (List.mem_cons_of_mem c hd)

/-- `numTokRest` holds on digits, a dot, then digits. -/
theorem numTokRest_digits_dot (ds ds2 : List Char)
    (h1 : ∀ c ∈ ds, c.isDigit = true) (h2 : ∀ c ∈ ds2, c.isDigit = true) :
    numTokRest (ds ++ '.' :: ds2) = true := by
  induction ds with
  | nil =>
    simp [numTokRest]
    intro c hc
    exact h2 c hc
  | cons c rest ih =>
    have hc : c.isDigit = true := h1 c (List.mem_cons_self c rest)
    have hcd : ¬ c = '.' := by
      intro he
      rw [he] at hc
      simp at hc
    simp only [List.cons_append, numTokRest, if_neg hcd, hc, Bool.true_and]
    exact ih fun d hd => h1 d (List.mem_cons_of_mem c hd)

/-- The regex token matched at a digit, rejoined with its suffix, restores the
input. -/
theorem numTokAt_append (l : List Char) : (numTokAt l).1 ++ (numTokAt l).2 = l := by
  unfold numTokAt
  split
  · next r2 heq =>
    simp only [List.append_assoc, List.cons_append]
    rw [List.takeWhile_append_dropWhile]
    conv_rhs => rw [← List.takeWhile_append_dropWhile Char.isDigit l]
    rw [heq]
  · exact List.takeWhile_append_dropWhile Char.isDigit l

/-- The token matched at a list starting with a digit has the
`\d+\.?\d*` shape. -/
theorem numTokAt_shape (c : Char) (l : List Char) (hc : c.isDigit = true) :
    listNumTok (numTokAt (c :: l)).1 = true := by
  have htw : (c :: l).takeWhile Char.isDigit = c :: l.takeWhile Char.isDigit := by
    simp [List.takeWhile_cons, hc]
  have hdigits : ∀ d ∈ l.takeWhile Char.isDigit, d.isDigit = true :=
    fun d hd => List.mem_takeWhile_imp hd
  unfold numTokAt
  split
  · next r2 heq =>
    simp only [htw, List.cons_append, listNumTok, hc, Bool.true_and]
    exact numTokRest_digits_dot _ _ hdigits
      (fun d hd => List.mem_takeWhile_imp hd)
  · simp only [htw, listNumTok, hc, Bool.true_and]
    exact numTokRest_digits _ hdigits

/-- The character right after the matched token is not a digit, and is a dot
only when the token itself already consumed a dot. -/
theorem numTokAt_suffix (l : List Char) (d : Char)
    (hd : (numTokAt l).2.head? = some d) :
    d.isDigit = false ∧ (d = '.' → '.' ∈ (numTokAt l).1) := by
  unfold numTokAt at hd ⊢
  revert hd
  split
  · next r2 heq =>
    intro hd
    refine ⟨head_dropWhile_false Char.isDigit r2 d hd, fun _ => ?_⟩
    simp
  · next hne =>
    intro hd
    refine ⟨head_dropWhile_false Char.isDigit l d hd, fun hdot => ?_⟩
    exfalso
    subst hdot
    rw [List.head?_eq_some_iff] at hd
    obtain ⟨t, ht⟩ := hd
    exact hne t ht

/-- No digit in the text exactly when the rating regex finds nothing. -/
theorem findNum_none_iff (l : List Char) :
    findNum l = none ↔ ∀ c ∈ l, c.isDigit = false := by
  induction l with
  | nil => simp [findNum]
  | cons c rest ih =>
    by_cases hc : c.isDigit = true
    · simp [findNum, hc]
    · have hcf : c.isDigit = false := by simpa using hc
      constructor
      · intro h
        rw [findNum, if_neg hc] at h
        cases hfn : findNum rest with
        | none =>
          intro d hdm
          rcases List.mem_cons.mp hdm with he | hm
          · subst he; exact hcf
          · exact (ih.mp hfn) d hm
        | some v =>
          exfalso
          rw [hfn] at h
          obtain ⟨p, t, s⟩ := v
          simp at h
      · intro h
        have hrest : findNum rest = none :=
          ih.mpr fun d hdm => h d (List.mem_cons_of_mem c hdm)
        rw [findNum, if_neg hc, hrest]

/-- Full decomposition delivered by the rating regex: digit-free text, the
matched numeric token, and a suffix that cannot extend the match. -/
theorem findNum_some_spec :
    ∀ (l pre tok suf : List Char), findNum l = some (pre, tok, suf) →
      l = pre ++ tok ++ suf ∧ (∀ c ∈ pre, c.isDigit = false) ∧
      listNumTok tok = true ∧
      (∀ d, suf.head? = some d → d.isDigit = false ∧ (d = '.' → '.' ∈ tok)) := by
  intro l
  induction l with
  | nil => intro pre tok suf h; simp [findNum] at h
  | cons c rest ih =>
    intro pre tok suf h
    by_cases hc : c.isDigit = true
    · rw [findNum, if_pos hc] at h
      simp only [Option.some.injEq, Prod.mk.injEq] at h
      obtain ⟨h1, h2, h3⟩ := h
      subst h1; subst h2; subst h3
      refine ⟨?_, by simp, numTokAt_shape c rest hc, numTokAt_suffix (c :: rest)⟩
      simp only [List.nil_append]
      exact (numTokAt_append (c :: rest)).symm
    · have hcf : c.isDigit = false := by simpa using hc
      rw [findNum, if_neg hc] at h
      cases hfn : findNum rest with
      | none => rw [hfn] at h; simp at h
      | some v =>
        obtain ⟨p, t, s⟩ := v
        rw [hfn] at h
        simp only [Option.some.injEq, Prod.mk.injEq] at h
        obtain ⟨h1, h2, h3⟩ := h
        obtain ⟨ih1, ih2, ih3, ih4⟩ := ih p t s hfn
        subst h1; subst h2; subst h3
        refine ⟨by rw [List.cons_append, List.cons_append, ← ih1], ?_, ih3, ih4⟩
        intro d hdm
        rcases List.mem_cons.mp hdm with he | hm
        · subst he; exact hcf
        · exact ih2 d hm

/-- C8: `clean_rating` returns the first decimal-or-integer numeric substring
of the rating text — the text splits as digit-free prefix, the returned
numeric token, and a non-extending suffix — and returns the sentinel
`"No rating"` when the text contains no digits; `"Scored 7.9"` yields
`"7.9"`. -/
theorem clean_rating_first_numeric (t : String) :
    ((∀ c ∈ t.toList, c.isDigit = false) → clean_rating t = "No rating") ∧
    (∀ c ∈ t.toList, c.isDigit = true →
      isNumTok (clean_rating t) = true ∧
      ∃ pre suf : List Char,
        t.toList = pre ++ (clean_rating t).toList ++ suf ∧
        (∀ d ∈ pre, d.isDigit = false) ∧
        (∀ d, suf.head? = some d →
          d.isDigit = false ∧ (d = '.' → '.' ∈ (clean_rating t).toList))) ∧
    clean_rating "Scored 7.9" = "7.9" := by
  refine ⟨?_, ?_, by rfl⟩
  · intro h
    rw [clean_rating, (findNum_none_iff t.toList).mpr h]
  · intro c hc hcd
    cases hfn : findNum t.toList with
    | none =>
      exfalso
      have := (findNum_none_iff t.toList).mp hfn c hc
      rw [hcd] at this
      exact Bool.true_eq_false.mp this
    | some v =>
      obtain ⟨pre, tok, suf⟩ := v
      obtain ⟨h1, h2, h3, h4⟩ := findNum_some_spec t.toList pre tok suf hfn
      have hcl : clean_rating t = tok.asString := by rw [clean_rating, hfn]
      have htl : (clean_rating t).toList = tok := by
        rw [hcl]; exact List.toList_asString tok
      refine ⟨?_, pre, suf, ?_, h2, ?_⟩
      · rw [isNumTok, htl]; exact h3
      · rw [htl]; exact h1
      · rw [htl]; exact h4

/-- C8 witness: the theorem applied at the concrete text `"Scored 7.9"`. -/
theorem clean_rating_first_numeric_witness :
    isNumTok (clean_rating "Scored 7.9") = true :=
  ((clean_rating_first_numeric "Scored 7.9").2.1 '7' (by decide) (by decide)).1

/-- C9 (amended): link normalization rewrites an href that does not already
start with `"http"` into an absolute URL by prepending the site origin, and
leaves an href starting with `"http"` unchanged. -/
theorem normalizeHref_spec (s : String) :
    (pyStartsWith s "http" = true → normalizeHref s = s) ∧
    (s ≠ "" → pyStartsWith s "http" = false →
      normalizeHref s = "https://www.booking.com" ++ s) := by
  constructor
  · intro h
    simp [normalizeHref, h]
  · intro h1 h2
    have hne : (s != "") = true := by
      simpa using h1
    simp [normalizeHref, h2, hne]

/-- C9 counterexample: the href `"mailto:hi@x.com"` starts with the scheme
`mailto:` yet is rewritten, contradicting the claim that any href already
starting with a scheme is left unchanged. -/
theorem normalizeHref_scheme_cex :
    normalizeHref "mailto:hi@x.com" = "https://www.booking.commailto:hi@x.com" := by
  decide

/-- C9 witness: the relative href of the spec scenario normalized through the
theorem. -/
theorem normalizeHref_spec_witness :
    normalizeHref "/hotel/fr/paris-central.html" =
      "https://www.booking.com" ++ "/hotel/fr/paris-central.html" :=
  (normalizeHref_spec "/hotel/fr/paris-central.html").2 (by decide) (by decide)

/-- C3: `collect_hotel_data` returns `none` exactly when the `name` or
`price` read faults; when both succeed a record is returned, and a faulting
link, address or rating read independently degrades to its sentinel value. -/
theorem collect_mandatory (h : HotelCard) :
    (collect_hotel_data h = none ↔ (h.name = none ∨ h.price = none)) ∧
    (∀ n p, h.name = some n → h.price = some p →
      ∃ r, collect_hotel_data h = some r ∧ r.name = n ∧ r.price = p ∧
        (h.linkAttr = AttrResult.raised → r.link = some "No link available") ∧
        (h.address = none → r.address = "No address available") ∧
        (h.ratingText = none → r.rating = "No rating")) := by
  obtain ⟨nm, pr, la, ad, rt⟩ := h
  constructor
  · cases nm <;> cases pr <;> simp [collect_hotel_data]
  · intro n p hn hp
    cases nm with
    | none => simp at hn
    | some nv =>
      cases pr with
      | none => simp at hp
      | some pv =>
        simp only [Option.some.injEq] at hn hp
        subst hn; subst hp
        refine ⟨_, rfl, rfl, rfl, ?_, ?_, ?_⟩
        · intro hla
          subst hla
          rfl
        · intro had
          subst had
          rfl
        · intro hrt
          subst hrt
          rfl

/-- C3 witness: a card with successful mandatory reads and all three optional
reads faulting yields a record carrying the three sentinels. -/
theorem collect_mandatory_witness :
    ∃ r, collect_hotel_data exCard = some r ∧
      r.link = some "No link available" ∧
      r.address = "No address available" ∧
      r.rating = "No rating" := by
  obtain ⟨r, hr, _, _, hl, ha, hrt⟩ :=
    (collect_mandatory exCard).2 "Hotel A" "$100" rfl rfl
  exact ⟨r, hr, hl rfl, ha rfl, hrt rfl⟩

/-! ### Helper lemmas for save_to_database -/

/-- Without fault injection the hotel-insert loop succeeds, keeps the session
table and adds one row per record. -/
theorem insertHotels_none_spec (sid : Nat) :
    ∀ (hs : List HotelRec) (idx : Nat) (db : DB),
      ∃ db', insertHotels sid none hs idx db = Except.ok db' ∧
        db'.sessions = db.sessions ∧
        db'.hotels.length = db.hotels.length + hs.length := by
  intro hs
  induction hs with
  | nil => intro idx db; exact ⟨db, rfl, rfl, by simp⟩
  | cons h rest ih =>
    intro idx db
    obtain ⟨db', h1, h2, h3⟩ := ih (idx + 1)
      { db with
          hotels := db.hotels ++
            [{ hotel_id := db.nextHotelId, session_id := sid, name := h.name,
               price := h.price, rating := h.rating, address := h.address,
               link := h.link }],
          nextHotelId := db.nextHotelId + 1 }
    refine ⟨db', ?_, h2, ?_⟩
    · rw [insertHotels, if_neg (by simp)]
      exact h1
    · rw [h3]
      simp
      omega

/-- A fault injected at an index the hotel-insert loop reaches makes it
raise. -/
theorem insertHotels_fault_spec (sid : Nat) :
    ∀ (hs : List HotelRec) (idx j : Nat) (db : DB), j < hs.length →
      insertHotels sid (some (idx + j)) hs idx db = Except.error () := by
  intro hs
  induction hs with
  | nil => intro idx j db hj; simp at hj
  | cons h rest ih =>
    intro idx j db hj
    cases j with
    | zero => rw [insertHotels, if_pos (by simp)]
    | succ j' =>
      rw [insertHotels, if_neg (by simp)]
      have harith : idx + (j' + 1) = (idx + 1) + j' := by omega
      rw [harith]
      exact ih (idx + 1) j' _ (by simpa using hj)

/-- A fault-free `save_to_database` call commits the session row and one
hotel row per record. -/
theorem save_none_spec (db : DB) (s : SessionData) (hs : List HotelRec) :
    ∃ db', save_to_database db none s hs = Except.ok db' ∧
      db'.sessions = db.sessions ++
        [{ session_id := db.nextSessionId, location := s.location,
           check_in_date := s.check_in, check_out_date := s.check_out,
           guests := s.guests }] ∧
      db'.hotels.length = db.hotels.length + hs.length := by
  unfold save_to_database
  rw [if_neg (by simp)]
  obtain ⟨db', h1, h2, h3⟩ :=
    insertHotels_none_spec (insertSession db s).2 hs 1 (insertSession db s).1
  rw [h1]
  exact ⟨db', rfl, by rw [h2]; rfl, by rw [h3]; rfl⟩

/-- C1 (amended): `save_to_database` is all-or-nothing — a fault on the
session insert or on any per-record insert rolls the whole harvest back,
leaving the database unchanged — but the fault is caught and logged inside
the function, which returns normally instead of surfacing it; without fault
the session row and all hotel rows are committed. -/
theorem save_all_or_nothing (db : DB) (s : SessionData) (hs : List HotelRec) (k : Nat) :
    (k ≤ hs.length → save_to_database db (some k) s hs = Except.ok db) ∧
    (∃ db', save_to_database db none s hs = Except.ok db' ∧
      db'.sessions = db.sessions ++
        [{ session_id := db.nextSessionId, location := s.location,
           check_in_date := s.check_in, check_out_date := s.check_out,
           guests := s.guests }] ∧
      db'.hotels.length = db.hotels.length + hs.length) := by
  constructor
  · intro hk
    unfold save_to_database
    cases k with
    | zero => rw [if_pos rfl]
    | succ k' =>
      rw [if_neg (by simp)]
      have harith : k' + 1 = 1 + k' := by omega
      rw [harith, insertHotels_fault_spec _ hs 1 k' _ (by omega)]
  · exact save_none_spec db s hs

/-- C1 counterexample: with a fault injected on the last per-record insert,
the call returns `Except.ok` — the fault is swallowed, not surfaced to the
caller as the claim states (a surfaced fault would be `Except.error`). -/
theorem save_fault_swallowed_cex :
    save_to_database emptyDB (some 1) exSess [exHotelA] = Except.ok emptyDB := by
  rfl

/-- C1 witness: the amended theorem applied at a fault on the last record
write of a two-record harvest. -/
theorem save_all_or_nothing_witness :
    save_to_database emptyDB (some 2) exSess [exHotelA, exHotelB] = Except.ok emptyDB :=
  (save_all_or_nothing emptyDB exSess [exHotelA, exHotelB] 2).1 (by decide)

/-! ### Helper lemmas for the circuit breaker -/

/-- Break-flag characterization of `harvestLoop`, generalized over the
incoming consecutive-failure count `f`: with `f` failures already counted,
the break fires exactly when the remaining outcomes contain a contiguous run
of 5 failures, or start with `5 - f` failures. -/
theorem harvestLoop_flag_aux :
    ∀ (outs : List (Option HotelRec)) (f : Nat), f ≤ 4 →
      ((harvestLoop outs f).2 = true ↔
        ((∃ l1 l2, outs = l1 ++ List.replicate 5 (none : Option HotelRec) ++ l2) ∨
         (∃ l2, outs = List.replicate (5 - f) (none : Option HotelRec) ++ l2))) := by
  intro outs
  induction outs with
  | nil =>
    intro f hf
    constructor
    · intro hfl
      simp [harvestLoop] at hfl
    · rintro (⟨l1, l2, hl⟩ | ⟨l2, hl⟩)
      · have := congrArg List.length hl
        simp at this
        exact absurd this (by omega)
      · have := congrArg List.length hl
        simp at this
        exact absurd this (by omega)
  | cons o rest ih =>
    intro f hf
    cases o with
    | some r =>
      have hstep : (harvestLoop (some r :: rest) f).2 = (harvestLoop rest 0).2 := rfl
      rw [hstep, ih 0 (by omega)]
      constructor
      · rintro (⟨l1, l2, hl⟩ | ⟨l2, hl⟩)
        · exact Or.inl ⟨some r :: l1, l2, by rw [hl]; simp⟩
        · exact Or.inl ⟨[some r], l2, by rw [hl]; simp⟩
      · rintro (⟨l1, l2, hl⟩ | ⟨l2, hl⟩)
        · cases l1 with
          | nil =>
            exfalso
            rw [List.nil_append, show List.replicate 5 (none : Option HotelRec) =
              none :: List.replicate 4 none from rfl, List.cons_append] at hl
            injection hl with hhead htail
            exact Option.noConfusion hhead
          | cons a l1' =>
            rw [List.cons_append, List.cons_append] at hl
            injection hl with hhead htail
            exact Or.inl ⟨l1', l2, htail⟩
        · exfalso
          rw [show 5 - f = (4 - f) + 1 from by omega, List.replicate_succ,
            List.cons_append] at hl
          injection hl with hhead htail
          exact Option.noConfusion hhead
    | none =>
      by_cases hf4 : f = 4
      · subst hf4
        have hstep : (harvestLoop (none :: rest) 4).2 = true := rfl
        rw [hstep]
        simp only [true_iff]
        exact Or.inr ⟨rest, by rw [show (5:Nat) - 4 = 1 from rfl]; rfl⟩
      · have hlt : f + 1 ≤ 4 := by omega
        have hstep : harvestLoop (none :: rest) f = harvestLoop rest (f + 1) := by
          rw [harvestLoop, if_neg (by omega)]
        rw [hstep, ih (f + 1) hlt]
        constructor
        · rintro (⟨l1, l2, hl⟩ | ⟨l2, hl⟩)
          · exact Or.inl ⟨none :: l1, l2, by rw [hl]; simp⟩
          · refine Or.inr ⟨l2, ?_⟩
            rw [show 5 - f = (5 - (f + 1)) + 1 from by omega, List.replicate_succ,
              List.cons_append, hl]
        · rintro (⟨l1, l2, hl⟩ | ⟨l2, hl⟩)
          · cases l1 with
            | nil =>
              rw [List.nil_append, show List.replicate 5 (none : Option HotelRec) =
                none :: List.replicate 4 none from rfl, List.cons_append] at hl
              injection hl with hhead htail
              refine Or.inr ⟨List.replicate f (none : Option HotelRec) ++ l2, ?_⟩
              rw [htail, ← List.append_assoc, ← List.replicate_add,
                show 5 - (f + 1) + f = 4 from by omega]
            | cons a l1' =>
              rw [List.cons_append, List.cons_append] at hl
              injection hl with hhead htail
              exact Or.inl ⟨l1', l2, htail⟩
          · rw [show 5 - f = (5 - (f + 1)) + 1 from by omega, List.replicate_succ,
              List.cons_append] at hl
            injection hl with hhead htail
            exact Or.inr ⟨l2, htail⟩

/-- C4: the collection loop of `run` stops early exactly when 5 consecutive
extractions fail (a contiguous run of 5 failures occurs in the outcome
sequence); a successful extraction resets the consecutive-failure counter to
0; and the batch collected before an early stop is still persisted as a
session when non-empty. -/
theorem harvest_circuit_breaker (outs : List (Option HotelRec)) :
    ((harvestLoop outs 0).2 = true ↔
      ∃ l1 l2, outs = l1 ++ List.replicate 5 (none : Option HotelRec) ++ l2) ∧
    (∀ (r : HotelRec) (rest : List (Option HotelRec)) (f : Nat),
      harvestLoop (some r :: rest) f =
        (r :: (harvestLoop rest 0).1, (harvestLoop rest 0).2)) ∧
    (∀ (db : DB) (ctx : SessionData), (harvestLoop outs 0).1 ≠ [] →
      (runPipeline db none ctx outs).sessions.length = db.sessions.length + 1) := by
  refine ⟨?_, fun r rest f => rfl, ?_⟩
  · rw [harvestLoop_flag_aux outs 0 (by omega)]
    constructor
    · rintro (hrun | ⟨l2, hl⟩)
      · exact hrun
      · exact ⟨[], l2, by rw [hl]; simp⟩
    · intro hrun
      exact Or.inl hrun
  · intro db ctx hne
    obtain ⟨db', h1, h2, h3⟩ := save_none_spec db ctx (harvestLoop outs 0).1
    have hemp : (harvestLoop outs 0).1.isEmpty = false := by
      cases hb : (harvestLoop outs 0).1 with
      | nil => exact absurd hb hne
      | cons a l => rfl
    unfold runPipeline
    rw [hemp]
    simp only [Bool.false_eq_true, if_false]
    rw [h1]
    simp only [commitResult]
    rw [h2]
    simp

/-- C4 witness: a batch of one success followed by five failures triggers the
break, and its single-record batch is persisted as one new session row. -/
theorem harvest_circuit_breaker_witness :
    (harvestLoop [some exHotelA, none, none, none, none, none] 0).2 = true ∧
    (runPipeline emptyDB none exSess [some exHotelA]).sessions.length =
      emptyDB.sessions.length + 1 := by
  constructor
  · exact (harvest_circuit_breaker [some exHotelA, none, none, none, none, none]).1.mpr
      ⟨[some exHotelA], [], rfl⟩
  · exact (harvest_circuit_breaker [some exHotelA]).2.2 emptyDB exSess (by decide)

/-- C7: `run` persists a session exactly for a non-empty batch — an empty
batch leaves the database untouched (no session row), while a non-empty
batch is handed to `save_to_database` once, creating one session row and one
hotel row per collected record. -/
theorem persist_iff_nonempty (db : DB) (fa : Option Nat) (ctx : SessionData)
    (outs : List (Option HotelRec)) :
    ((harvestLoop outs 0).1 = [] → runPipeline db fa ctx outs = db) ∧
    ((harvestLoop outs 0).1 ≠ [] →
      (runPipeline db none ctx outs).sessions = db.sessions ++
        [{ session_id := db.nextSessionId, location := ctx.location,
           check_in_date := ctx.check_in, check_out_date := ctx.check_out,
           guests := ctx.guests }] ∧
      (runPipeline db none ctx outs).hotels.length =
        db.hotels.length + (harvestLoop outs 0).1.length) := by
  constructor
  · intro hemp
    unfold runPipeline
    rw [hemp]
    rfl
  · intro hne
    obtain ⟨db', h1, h2, h3⟩ := save_none_spec db ctx (harvestLoop outs 0).1
    have hemp : (harvestLoop outs 0).1.isEmpty = false := by
      cases hb : (harvestLoop outs 0).1 with
      | nil => exact absurd hb hne
      | cons a l => rfl
    unfold runPipeline
    rw [hemp]
    simp only [Bool.false_eq_true, if_false]
    rw [h1]
    simp only [commitResult]
    exact ⟨h2, h3⟩

/-- C7 witness: the theorem applied to an empty and to a one-record batch. -/
theorem persist_iff_nonempty_witness :
    runPipeline emptyDB (some 0) exSess [] = emptyDB ∧
    (runPipeline emptyDB none exSess [some exHotelB]).sessions =
      emptyDB.sessions ++
        [{ session_id := 1, location := exSess.location,
           check_in_date := exSess.check_in, check_out_date := exSess.check_out,
           guests := exSess.guests }] := by
  constructor
  · exact (persist_iff_nonempty emptyDB (some 0) exSess []).1 (by decide)
  · exact ((persist_iff_nonempty emptyDB none exSess [some exHotelB]).2 (by decide)).1

/-! ### Helper lemmas for load_all_hotels -/

/-- The loop never executes more rounds than it has fuel. -/
theorem loadAux_rounds_le (h : Nat → Nat) :
    ∀ (fuel i last stall : Nat), (loadAux h fuel i last stall).1 ≤ fuel := by
  intro fuel
  induction fuel with
  | zero => intro i last stall; simp [loadAux]
  | succ n ih =>
    intro i last stall
    rw [loadAux]
    by_cases hc : h i = last
    · rw [if_pos hc]
      by_cases hs : stall + 1 ≥ 2
      · rw [if_pos hs]
        simp
      · rw [if_neg hs]
        have := ih (i + 1) (h i) (stall + 1)
        simp
        omega
    · rw [if_neg hc]
      have := ih (i + 1) (h i) 0
      simp
      omega

/-- If round `j` is the first round such that rounds `j` and `j + 1` both
measure an unchanged scroll extent, the loop runs exactly `j + 2` rounds and
ends through the stall break.  The state invariant: at round `i` the `last`
argument is the previous round's measurement and `stall` is 1 exactly when
round `i - 1` was unchanged. -/
theorem loadAux_stable_spec (h : Nat → Nat) (j : Nat)
    (hj1 : h j = prevH h j) (hj2 : h (j + 1) = h j)
    (hmin : ∀ k, k < j → ¬ (h k = prevH h k ∧ h (k + 1) = h k)) :
    ∀ (fuel i stall last : Nat), last = prevH h i → i ≤ j + 1 → j + 2 ≤ i + fuel →
      (stall = 1 ↔ (0 < i ∧ h (i - 1) = prevH h (i - 1))) → stall ≤ 1 →
      loadAux h fuel i last stall = (j + 2 - i, true) := by
  intro fuel
  induction fuel with
  | zero =>
    intro i stall last _ hi hfuel _ _
    exact absurd hfuel (by omega)
  | succ n ih =>
    intro i stall last hlast hi hfuel hiff hle
    subst hlast
    rw [loadAux]
    by_cases hc : h i = prevH h i
    · rw [if_pos hc]
      cases stall with
      | succ s =>
        have hs0 : s = 0 := by omega
        subst hs0
        obtain ⟨hipos, hprev⟩ := hiff.mp rfl
        have hstep : h ((i - 1) + 1) = h (i - 1) := by
          have hp : prevH h i = h (i - 1) := by
            cases i with
            | zero => exact absurd hipos (by omega)
            | succ i' => simp [prevH]
          rw [Nat.sub_add_cancel hipos, hc, hp]
        have hij : i = j + 1 := by
          by_contra hne
          have hlt : i - 1 < j := by omega
          exact hmin (i - 1) hlt ⟨hprev, hstep⟩
        rw [if_pos (by omega)]
        have harith : j + 2 - i = 1 := by omega
        rw [harith]
      | zero =>
        rw [if_neg (by omega)]
        have hij : i ≤ j := by
          by_contra hgt
          have hi1 : i = j + 1 := by omega
          have hr : 0 < i ∧ h (i - 1) = prevH h (i - 1) := by
            refine ⟨by omega, ?_⟩
            rw [hi1]
            simpa using hj1
          exact absurd (hiff.mpr hr) (by omega)
        have hrec := ih (i + 1) 1 (h i) rfl (by omega) (by omega) ?_ (by omega)
        · rw [hrec]
          have harith : j + 2 - (i + 1) + 1 = j + 2 - i := by omega
          rw [harith]
        · constructor
          · intro _
            refine ⟨by omega, ?_⟩
            simpa using hc
          · intro _
            rfl
    · rw [if_neg hc]
      have hij : i < j := by
        rcases Nat.lt_or_ge i j with hlt | hge
        · exact hlt
        · exfalso
          have : i = j ∨ i = j + 1 := by omega
          rcases this with he | he
          · subst he
            exact hc hj1
          · subst he
            apply hc
            show h (j + 1) = prevH h (j + 1)
            simpa [prevH] using hj2
      have hrec := ih (i + 1) 0 (h i) rfl (by omega) (by omega) ?_ (by omega)
      · rw [hrec]
        have harith : j + 2 - (i + 1) + 1 = j + 2 - i := by omega
        rw [harith]
      · constructor
        · intro h01
          exact absurd h01 (by omega)
        · rintro ⟨_, hpr⟩
          exfalso
          exact hc (by simpa using hpr)

/-- C5: `load_all_hotels` always terminates within the 100-round cap; it
ends through its stable break exactly at round `j + 2` whenever `j` is the
first round index at which the scroll extent is unchanged for two
consecutive rounds; and a round with a changed extent resets the stall
counter to zero. -/
theorem load_all_hotels_terminates (h : Nat → Nat) :
    (load_all_hotels h).1 ≤ 100 ∧
    (∀ j, j + 2 ≤ 100 → h j = prevH h j → h (j + 1) = h j →
      (∀ k, k < j → ¬ (h k = prevH h k ∧ h (k + 1) = h k)) →
      load_all_hotels h = (j + 2, true)) ∧
    (∀ (fuel i last stall : Nat), h i ≠ last →
      loadAux h (fuel + 1) i last stall =
        ((loadAux h fuel (i + 1) (h i) 0).1 + 1,
         (loadAux h fuel (i + 1) (h i) 0).2)) := by
  refine ⟨loadAux_rounds_le h 100 0 0 0, ?_, ?_⟩
  · intro j h100 hj1 hj2 hmin
    have hres := loadAux_stable_spec h j hj1 hj2 hmin 100 0 0 0 rfl (by omega)
      (by omega) ?_ (by omega)
    · rw [load_all_hotels, hres, Nat.sub_zero]
    · constructor
      · intro h01
        exact absurd h01 (by omega)
      · rintro ⟨h00, _⟩
        exact absurd h00 (by omega)
  · intro fuel i last stall hne
    rw [loadAux, if_neg hne]

/-- C5 witness: a page whose scroll extent is constantly 0 stalls in rounds
0 and 1 and the loop stops after exactly 2 rounds through the stable break. -/
theorem load_all_hotels_terminates_witness :
    load_all_hotels (fun _ => 0) = (2, true) := by
  apply (load_all_hotels_terminates (fun _ => 0)).2.1 0 (by omega) rfl rfl
  intro k hk
  exact absurd hk (Nat.not_lt_zero k)

/-! ### Helper lemmas for get_search_parameters -/

/-- The selector loop only stops at a non-empty value. -/
theorem tryInputs_some_ne :
    ∀ (vs : List (Option String)) (l : String), tryInputs vs = some l → l ≠ "" := by
  intro vs
  induction vs with
  | nil =>
    intro l h
    simp [tryInputs] at h
  | cons v rest ih =>
    intro l h
    cases v with
    | none => exact ih l h
    | some s =>
      by_cases hs : (s == "") = true
      · rw [tryInputs, if_pos hs] at h
        exact ih l h
      · rw [tryInputs, if_neg hs] at h
        injection h with he
        subst he
        simpa using hs

/-- C2 (amended): the location strategies run input fields first and the URL
parameter only as fallback — whenever some input selector yields a non-empty
location and the context read completes without its top-level fault, the
returned location is that input value, regardless of the URL. -/
theorem location_inputs_first (st : PageState) (l : String) (n : Int)
    (hl : tryInputs (locationSelectors.map st.inputValue) = some l)
    (hg : pyInt (guestsFinalStr st) = some n) :
    (get_search_parameters st).1 = l := by
  have hloc : locationVar st = some l := by
    rw [locationVar, hl]
  have hne : (l == "") = false := by
    have := tryInputs_some_ne _ l hl
    simpa using this
  rw [get_search_parameters, hg]
  simp only [hloc, hne, Bool.false_eq_true, if_false]
  by_cases hf : (pyFalsy (datesVar st).1 || pyFalsy (datesVar st).2) = true
  · rw [if_pos hf]
  · rw [if_neg hf]

/-- C2 counterexample: a page state whose URL carries the location query
parameter `ss=Paris` while an input field holds `London` — the returned
location is the input value, not the URL value, refuting the claimed
URL-first priority order. -/
theorem location_url_ignored_cex :
    pyContains exStLoc.url "ss=" = true ∧
    pyAfterFirst exStLoc.url "ss=" = "Paris" ∧
    (get_search_parameters exStLoc).1 = "London" := by
  refine ⟨by decide, by decide, by decide⟩

/-- C2 witness: the amended theorem applied at the concrete page state. -/
theorem location_inputs_first_witness :
    (get_search_parameters exStLoc).1 = "London" :=
  location_inputs_first exStLoc "London" 2 (by decide) (by decide)

/-- C6: the returned check-in and check-out dates are defaulted only as a
pair — either both equal the (today, tomorrow) defaults, or both are the
non-empty values the date strategies resolved; never one of each. -/
theorem dates_default_pair (st : PageState) :
    ((get_search_parameters st).2.1 = st.today ∧
     (get_search_parameters st).2.2.1 = st.tomorrow) ∨
    (∃ ci co, datesVar st = (some ci, some co) ∧ ci ≠ "" ∧ co ≠ "" ∧
      (get_search_parameters st).2.1 = ci ∧
      (get_search_parameters st).2.2.1 = co) := by
  cases hpi : pyInt (guestsFinalStr st) with
  | none =>
    left
    rw [get_search_parameters, hpi]
    exact ⟨rfl, rfl⟩
  | some n =>
    by_cases hf : (pyFalsy (datesVar st).1 || pyFalsy (datesVar st).2) = true
    · left
      rw [get_search_parameters, hpi]
      simp [hf]
    · right
      have h1 : pyFalsy (datesVar st).1 = false := by
        cases hx : pyFalsy (datesVar st).1
        · rfl
        · exfalso
          apply hf
          rw [hx]
          rfl
      have h2 : pyFalsy (datesVar st).2 = false := by
        cases hx : pyFalsy (datesVar st).2
        · rfl
        · exfalso
          apply hf
          rw [hx]
          simp
      obtain ⟨ci, hci⟩ : ∃ ci, (datesVar st).1 = some ci := by
        cases hy : (datesVar st).1 with
        | none =>
          rw [hy] at h1
          simp [pyFalsy] at h1
        | some s => exact ⟨s, rfl⟩
      obtain ⟨co, hco⟩ : ∃ co, (datesVar st).2 = some co := by
        cases hy : (datesVar st).2 with
        | none =>
          rw [hy] at h2
          simp [pyFalsy] at h2
        | some s => exact ⟨s, rfl⟩
      have hcine : ci ≠ "" := by
        rw [hci] at h1
        simp [pyFalsy] at h1
        exact h1
      have hcone : co ≠ "" := by
        rw [hco] at h2
        simp [pyFalsy] at h2
        exact h2
      refine ⟨ci, co, ?_, hcine, hcone, ?_, ?_⟩
      · rw [← hci, ← hco]
      · rw [get_search_parameters, hpi]
        simp only [hf, Bool.false_eq_true, if_false]
        rw [hci]
        rfl
      · rw [get_search_parameters, hpi]
        simp only [hf, Bool.false_eq_true, if_false]
        rw [hco]
        rfl

/-- C10: when the resolved guests string does not parse as a decimal integer,
the `int` call raises into the top-level handler and the whole context —
including any already-resolved location and dates — collapses to the
all-default `("Unknown Location", today, tomorrow, 2)`. -/
theorem guests_fault_full_default (st : PageState)
    (hg : pyInt (guestsFinalStr st) = none) :
    get_search_parameters st = ("Unknown Location", st.today, st.tomorrow, 2) := by
  rw [get_search_parameters, hg]

/-- C10 witness: with `group_adults=abc` in the URL the guests string is
`"abc"`, while the location input and the URL dates resolve — yet the
returned context is the full default. -/
theorem guests_fault_full_default_witness :
    tryInputs (locationSelectors.map exStBadGuests.inputValue) = some "London" ∧
    pyFalsy (datesVar exStBadGuests).1 = false ∧
    guestsFinalStr exStBadGuests = "abc" ∧
    get_search_parameters exStBadGuests =
      ("Unknown Location", "2024-01-01", "2024-01-02", 2) :=
  ⟨by decide, by decide, by decide,
   guests_fault_full_default exStBadGuests (by decide)⟩
